import Mathlib

/-!
Verification development for the surya call-graph generator
(src/src/graph.js and src/src/utils/importer.js).

The JavaScript source is shallowly embedded: JS objects become association
lists with insertion-order semantics, JS `Set` values become duplicate-free
lists in insertion order, and the two traversal passes of `graph()` become
folds over the depth-first event stream that `parser.visit` would produce.
External collaborators (`@solidity-parser/parser`, the `graphviz` builder,
`c3-linearization`, `fs`/`path`) are modelled at the interface the spec
gives for them; every such definition is marked `Modelled from the spec:`.
-/

/-! ## String utilities mirroring the JavaScript string operations -/

/-- Drops `p` from the front of `l`, or fails when `p` is not a prefix. -/
def dropPre : List Char → List Char → Option (List Char)
  | [], l => some l
  | _ :: _, [] => none
  | a :: p, b :: l => if a = b then dropPre p l else none

/-- One splitting pass for `jsSplit`: fuel-driven scan of the character list. -/
def splitChars (sep : List Char) : Nat → List Char → List Char → List (List Char)
  | 0, l, acc => [acc ++ l]
  | _ + 1, [], acc => [acc]
  | n + 1, c :: rest, acc =>
    match dropPre sep (c :: rest) with
    | some rem => acc :: splitChars sep n rem []
    | none => splitChars sep n rest (acc ++ [c])

/-- JS `String.prototype.split` with a non-regex separator.  An empty
separator splits into single characters, as in JavaScript. -/
def jsSplit (s sep : String) : List String :=
  if sep.data = [] then s.data.map (fun c => String.mk [c])
  else (splitChars sep.data (s.data.length + 1) s.data []).map String.mk

/-- JS `String.prototype.includes`: substring containment. -/
def jsIncludes (s sub : String) : Bool :=
  jsIncludesAux s.data sub.data
where
  jsIncludesAux : List Char → List Char → Bool
    | l, p =>
      (dropPre p l).isSome ||
        match l with
        | [] => false
        | _ :: t => jsIncludesAux t p

/-- Character-list core of `jsReplaceFirst`. -/
def replFirst (pat repl : List Char) : List Char → List Char
  | [] => []
  | c :: rest =>
    match dropPre pat (c :: rest) with
    | some rem => repl ++ rem
    | none => c :: replFirst pat repl rest

/-- JS `String.prototype.replace` with string arguments: replaces only the
first occurrence; an empty pattern matches at the start of the string. -/
def jsReplaceFirst (s pat repl : String) : String :=
  if pat.data = [] then repl ++ s
  else String.mk (replFirst pat.data repl.data s.data)

/-- String prefix test written over the character lists. -/
def strStartsWith (s p : String) : Bool := (dropPre p.data s.data).isSome

/-- String suffix test written over the character lists. -/
def strEndsWith (s p : String) : Bool :=
  (dropPre p.data.reverse s.data.reverse).isSome

/-! ## JS objects and JS sets -/

/-- A JavaScript object with string keys: keys are unique, kept in insertion
order, and assignment updates in place (JS own-property semantics). -/
abbrev JsObj (α : Type) : Type := List (String × α)

/-- Property lookup (`obj[k]`); `none` models the JS value `undefined`. -/
def JsObj.get? {α : Type} (m : JsObj α) (k : String) : Option α :=
  (List.find? (fun p => p.1 = k) m).map (fun p => p.2)

/-- JS `Object.prototype.hasOwnProperty` for a string key. -/
def JsObj.hasKey {α : Type} (m : JsObj α) (k : String) : Bool :=
  (List.find? (fun p => p.1 = k) m).isSome

/-- Assignment `obj[k] = v`: updates in place, or appends a new key. -/
def JsObj.set {α : Type} (m : JsObj α) (k : String) (v : α) : JsObj α :=
  if m.hasKey k then List.map (fun p => if p.1 = k then (k, v) else p) m
  else m ++ [(k, v)]

/-- Lookup with a default, used where the JS code relies on a key that its
own earlier writes always created. -/
def JsObj.getD {α : Type} (m : JsObj α) (k : String) (d : α) : α :=
  (m.get? k).getD d

/-- JS `Object.assign(target, src)`: copies the source object's properties
into the target in the source's key order. -/
def JsObj.assign {α : Type} (target src : JsObj α) : JsObj α :=
  List.foldl (fun t (p : String × α) => t.set p.1 p.2) target src

/-- `Object.assign(target, maybeSrc)` where the source may be the JS value
`undefined` (a no-op, as in JavaScript). -/
def JsObj.assignOpt {α : Type} (target : JsObj α) (src : Option (JsObj α)) :
    JsObj α :=
  match src with
  | none => target
  | some s => target.assign s

/-- JS `Set.prototype.add` on a set modelled as a duplicate-free list in
insertion order. -/
def jsSetAdd (s : List String) (x : String) : List String :=
  if x ∈ s then s else s ++ [x]

/-- JS `new Set(...args)` where the spread arguments are strings: the `Set`
constructor takes only its first argument and, being handed a string,
iterates its characters (this is how `graph.js` line 477 actually behaves). -/
def jsNewSetSpread (args : List String) : List String :=
  match args with
  | [] => []
  | s :: _ => List.foldl jsSetAdd [] (s.data.map (fun c => String.mk [c]))

/-- JS `ToPropertyKey` applied to a `Set` object, as happens in
`functionsPerContract.hasOwnProperty(contractUsingFor[...][...])`
(graph.js line 473): the set is converted with `toString`, which yields
the fixed string below for every `Set`. -/
def setPropKey (s : List String) : String :=
  let _ := s
  "[object Set]"

/-- A JS value that is `null`, `undefined`, or a string; the tri-state of
the `variableType` variable in the `FunctionCall` handler. -/
inductive JsV : Type
  | vNull : JsV
  | vUndef : JsV
  | vStr (s : String) : JsV
deriving DecidableEq, Repr

/-- JS `ToPropertyKey` on a `null`/`undefined`/string value. -/
def JsV.propKey : JsV → String
  | .vNull => "null"
  | .vUndef => "undefined"
  | .vStr s => s

/-- Converts a stored property value (where `none` is `undefined`) to `JsV`. -/
def jsVOfOpt : Option String → JsV
  | none => .vUndef
  | some s => .vStr s

/-! ## Import resolver (src/src/utils/importer.js) -/

/-- Errors thrown by `resolveImportPath` in its remapping branch. -/
inductive ImportError : Type
  | multipleAssignment : ImportError
  | unresolvedImport (path : String) : ImportError
  | invalidImportPath (path : String) : ImportError
  | readFailure (path : String) : ImportError
  | outOfFuel : ImportError
deriving DecidableEq, Repr

/-- Modelled from the spec: Node `path.join` of a directory (no trailing
separator) and a relative segment (no leading separator, no `.`/`..`
components): concatenation with a single separator. -/
def pathJoin (a b : String) : String := a ++ "/" ++ b

/-- Modelled from the spec: Node `path.resolve(base, p)` for a normalized
`p`: an absolute `p` is returned unchanged, a relative one is joined
under `base`. -/
def jsPathResolve (base p : String) : String :=
  if strStartsWith p "/" then p else pathJoin base p

/-- The outcome of the remapping scan of `resolveImportPath`
(importer.js lines 113-127): the first matching line's two sides.
`output = none` models `remappingSplit[1]` being `undefined` (a matching
manifest line that contains no `=`). -/
structure RemapMatch : Type where
  input : String
  output : Option String
deriving DecidableEq, Repr

/-- The scan loop of importer.js lines 114-127: walk the manifest lines in
order; a line splitting into more than two pieces at `=` throws; the first
line whose left side has `importBase` as a substring is taken and the loop
breaks. -/
def scanRemappings : List String → String → Except ImportError (Option RemapMatch)
  | [], _ => .ok none
  | line :: rest, importBase =>
    if (jsSplit line "=").length > 2 then .error .multipleAssignment
    else if jsIncludes ((jsSplit line "=").headD "") importBase then
      .ok (some ⟨(jsSplit line "=").headD "", (jsSplit line "=").get? 1⟩)
    else scanRemappings rest importBase

/-- JS string conversion of a possibly-`undefined` replacement, as used by
`importedFilePath.replace(forgeRemappingInput, forgeRemappingOutput)`. -/
def jsStrOfOpt : Option String → String
  | none => "undefined"
  | some s => s

/-- The `forgeRemappingsBool` branch of `resolveImportPath`
(importer.js lines 108-146), with the manifest's lines and the directory
`currentDir` that contains `remappings.txt` given, and the file system
abstracted to an `isFile` predicate.  When the scan finds no match (so
`forgeRemappingInput` stays falsy) the `node_modules` fallback of lines
133-137 applies; the final path must be an existing regular file. -/
def resolveRemapped (manifest : List String) (importedFilePath currentDir : String)
    (isFile : String → Bool) : Except ImportError String :=
  let importBase := (jsSplit importedFilePath "/").headD ""
  match scanRemappings manifest importBase with
  | .error e => .error e
  | .ok found =>
    let fInput := (found.map (fun r => r.input)).getD ""
    let fOutput := (found.map (fun r => r.output)).getD none
    let resolvedPath :=
      if fInput = "" then
        pathJoin (pathJoin currentDir "node_modules") importedFilePath
      else
        pathJoin currentDir (jsReplaceFirst importedFilePath fInput (jsStrOfOpt fOutput))
    if isFile resolvedPath then .ok resolvedPath
    else .error (.unresolvedImport resolvedPath)

/-! ## Import closure profiler (importer.js lines 16-59) -/

/-- What reading a path yields: a directory (`EISDIR`), or a parseable
source file summarized by the import paths its AST's `ImportDirective`
nodes carry. -/
inductive FsEntry : Type
  | dirEntry : FsEntry
  | fileEntry (imports : List String) : FsEntry
deriving DecidableEq, Repr

/-- One step of the loop body plus the recursion of `importProfiler`
(importer.js lines 16-59).  The returned `Bool` records whether this level
exited through the `EISDIR` early `return` of line 29 — JavaScript's
caller ignores the recursive call's return value, so the flag is dropped
at recursive call sites exactly as the code drops it. -/
def importProfilerGo (fs : String → Option FsEntry)
    (resolveImport : String → String → String) (projectDir : String) :
    Nat → List String → List String → Except ImportError (List String × Bool)
  | 0, _, _ => .error .outOfFuel
  | _ + 1, [], imported => .ok (imported, false)
  | fuel + 1, f :: rest, imported =>
    let file := jsPathResolve projectDir f
    if ¬ (strStartsWith file projectDir ∧ strEndsWith file ".sol") then
      .error (.invalidImportPath file)
    else
      match fs file with
      | none => .error (.readFailure file)
      | some .dirEntry => .ok (imported, true)
      | some (.fileEntry imps) =>
        let imported := jsSetAdd imported file
        let newFiles := List.foldl
          (fun acc imp =>
            let newFile := resolveImport file imp
            if newFile ∈ imported then acc else acc ++ [newFile])
          [] imps
        match importProfilerGo fs resolveImport projectDir fuel newFiles imported with
        | .error e => .error e
        | .ok (imported2, _) =>
          importProfilerGo fs resolveImport projectDir fuel rest imported2

/-- `importProfiler(files, projectDir)` with an empty starting set; returns
the accumulated set of files in insertion order. -/
def importProfilerRun (fs : String → Option FsEntry)
    (resolveImport : String → String → String) (projectDir : String)
    (files : List String) : Except ImportError (List String) :=
  match importProfilerGo fs resolveImport projectDir (files.length + 1) files [] with
  | .error e => .error e
  | .ok (imported, _) => .ok imported

/-- The file-reading loop at the top of `graph()` (graph.js lines 56-70,
`contentsInFilePath` off): a directory hit while reading prints a
diagnostic and `continue`s; other read failures are fatal.  Returns the
paths whose contents reach the parser, in order. -/
def graphReadLoop (fs : String → Option FsEntry) :
    List String → Option (List String)
  | [] => some []
  | f :: rest =>
    match fs f with
    | none => none
    | some .dirEntry => graphReadLoop fs rest
    | some (.fileEntry _) =>
      match graphReadLoop fs rest with
      | none => none
      | some l => some (f :: l)

/-! ## Syntax-tree fragment consumed by graph.js

Modelled from the spec: the external parser's tree (spec section 6), kept to
the node shapes the `graph()` handlers read.  A call expression is either a
plain identifier or a member access whose object is an identifier (which is
also how the parser presents `this` and `super`). -/

/-- A declared type, mirroring the parser's `typeName` shapes. -/
inductive SolType : Type
  | elementary (name : String) : SolType
  | userDefined (namePath : String) : SolType
  | arrayOf (base : SolType) : SolType
  | mappingTo (value : SolType) : SolType
deriving DecidableEq, Repr

/-- The JS field access `typeName.name` (only elementary types carry it). -/
def SolType.jsName : SolType → Option String
  | .elementary n => some n
  | _ => none

/-- The JS field access `typeName.namePath` (only user-defined types carry it). -/
def SolType.jsNamePath : SolType → Option String
  | .userDefined p => some p
  | _ => none

/-- Modelled from the spec: `parserHelpers.isUserDefinedDeclaration`
(src/utils/parserHelpers.js is not among the sources); section 4.2:
classify a declaration by its declared-type shape. -/
def isUserDefinedDecl : SolType → Bool
  | .userDefined _ => true
  | _ => false

/-- Modelled from the spec: `parserHelpers.isElementaryTypeDeclaration`. -/
def isElementaryDecl : SolType → Bool
  | .elementary _ => true
  | _ => false

/-- Modelled from the spec: `parserHelpers.isArrayDeclaration`. -/
def isArrayDecl : SolType → Bool
  | .arrayOf _ => true
  | _ => false

/-- Modelled from the spec: `parserHelpers.isMappingDeclaration`. -/
def isMappingDecl : SolType → Bool
  | .mappingTo _ => true
  | _ => false

/-- A variable or parameter declaration (`name` is `none` for an unnamed
parameter, matching the parser's `null`). -/
structure ParamDecl : Type where
  name : Option String
  ty : SolType
deriving DecidableEq, Repr

/-- The header of a `FunctionDefinition` node (`name` is `null` for
constructor, fallback and receive-ether declarations). -/
structure FuncHeader : Type where
  name : Option String
  isConstructor : Bool := false
  isFallback : Bool := false
  isReceiveEther : Bool := false
deriving DecidableEq, Repr

/-- The call expressions of the embedded fragment: a plain identifier call,
or a member call whose object is a plain identifier.  For an identifier
object, `parserHelpers.isSpecialVariable`, `isElementaryTypecast`,
`isMemberAccessOfAddress` and `isAContractTypecast` are all false (they
require a member access, a typecast call or an `address(...)` call in
object position), so those graph.js branches are vacuous here. -/
inductive CallExprForm : Type
  | identExpr (name : String) : CallExprForm
  | memberExpr (objectName memberName : String) : CallExprForm
deriving DecidableEq, Repr

/-- Statements appearing in a function or modifier body that the visitor's
registered handlers react to. -/
inductive BodyItem : Type
  | localVarDecl (name : Option String) (ty : SolType) : BodyItem
  | exprCall (e : CallExprForm) : BodyItem
deriving DecidableEq, Repr

/-- Contract kind of a `ContractDefinition` node. -/
inductive CKind : Type
  | contractK : CKind
  | interfaceK : CKind
  | libraryK : CKind
deriving DecidableEq, Repr

/-- A member of a contract body. -/
inductive Member : Type
  | functionDef (fd : FuncHeader) (params : List ParamDecl)
      (modifierInvocations : List String) (body : List BodyItem) : Member
  | modifierDef (name : String) (params : List ParamDecl)
      (body : List BodyItem) : Member
  | stateVarDef (vars : List ParamDecl) : Member
  | eventDef (name : String) : Member
  | structDef (name : String) : Member
  | customErrorDef (name : String) : Member
  | usingForDef (tyName : Option String) (libraryName : String) : Member
deriving DecidableEq, Repr

/-- A top-level item of a source file (file-level modifiers do not exist in
the language, so only functions, structs and custom errors appear here). -/
inductive TopItem : Type
  | contractDef (name : String) (kind : CKind) (bases : List String)
      (members : List Member) : TopItem
  | topFunctionDef (fd : FuncHeader) (params : List ParamDecl)
      (body : List BodyItem) : TopItem
  | topStructDef (name : String) : TopItem
  | topCustomErrorDef (name : String) : TopItem
deriving DecidableEq, Repr

/-- A parsed source file. -/
abbrev SolFile : Type := List TopItem

/-- The depth-first enter/exit event stream `parser.visit` delivers to the
registered handlers, one constructor per handled node kind. -/
inductive VEvent : Type
  | contractEnter (name : String) (kind : CKind) (bases : List String) : VEvent
  | contractExit : VEvent
  | stateVarEvent (vars : List ParamDecl) : VEvent
  | functionEnter (fd : FuncHeader) : VEvent
  | functionExit : VEvent
  | modifierEnter (name : String) : VEvent
  | modifierExit : VEvent
  | parameterListEvent (params : List ParamDecl) : VEvent
  | modifierInvocationEvent (name : String) : VEvent
  | eventDefEvent (name : String) : VEvent
  | structDefEvent (name : String) : VEvent
  | customErrorDefEvent (name : String) : VEvent
  | usingForEvent (tyName : Option String) (libraryName : String) : VEvent
  | varDeclEvent (name : Option String) (ty : SolType) : VEvent
  | functionCallEvent (e : CallExprForm) : VEvent
deriving DecidableEq, Repr

/-- Events of one body statement. -/
def bodyItemEvents : BodyItem → List VEvent
  | .localVarDecl n ty => [.varDeclEvent n ty]
  | .exprCall e => [.functionCallEvent e]

/-- Events of a function definition: enter, the parameter list (whose
parameters are themselves `VariableDeclaration` nodes and so also fire
that handler), the modifier invocations, the body, exit. -/
def functionDefEvents (fd : FuncHeader) (params : List ParamDecl)
    (mods : List String) (body : List BodyItem) : List VEvent :=
  [.functionEnter fd, .parameterListEvent params] ++
    params.map (fun p => .varDeclEvent p.name p.ty) ++
    mods.map (fun m => .modifierInvocationEvent m) ++
    body.flatMap bodyItemEvents ++ [.functionExit]

/-- Events of one contract member. -/
def memberEvents : Member → List VEvent
  | .functionDef fd ps mods body => functionDefEvents fd ps mods body
  | .modifierDef n ps body =>
    [.modifierEnter n, .parameterListEvent ps] ++
      ps.map (fun p => .varDeclEvent p.name p.ty) ++
      body.flatMap bodyItemEvents ++ [.modifierExit]
  | .stateVarDef vars =>
    .stateVarEvent vars :: vars.map (fun v => .varDeclEvent v.name v.ty)
  | .eventDef n => [.eventDefEvent n]
  | .structDef n => [.structDefEvent n]
  | .customErrorDef n => [.customErrorDefEvent n]
  | .usingForDef ty lib => [.usingForEvent ty lib]

/-- Events of one top-level item. -/
def topItemEvents : TopItem → List VEvent
  | .contractDef n k bs ms =>
    .contractEnter n k bs :: ms.flatMap memberEvents ++ [.contractExit]
  | .topFunctionDef fd ps body => functionDefEvents fd ps [] body
  | .topStructDef n => [.structDefEvent n]
  | .topCustomErrorDef n => [.customErrorDefEvent n]

/-- The full event stream of a file. -/
def fileEvents (f : SolFile) : List VEvent := f.flatMap topItemEvents

/-! ## Graph model

Modelled from the spec: the external graph builder (spec section 6) is an
additive store of clusters, node-registration events and edges, with
idempotent whole-graph lookups by name (`getCluster` / `getNode`). -/

/-- Edge classification, standing in for the color attribute the source
picks from the color scheme. -/
inductive EdgeKind : Type
  | defaultCall : EdgeKind
  | regularCall : EdgeKind
  | errorCall : EdgeKind
  | thisCall : EdgeKind
  | modifierEdge : EdgeKind
deriving DecidableEq, Repr

/-- One `addNode` registration: a qualified node name placed in a cluster. -/
structure NodeAdd : Type where
  name : String
  cluster : String
deriving DecidableEq, Repr

/-- One emitted edge. -/
structure GraphEdge : Type where
  src : String
  dst : String
  kind : EdgeKind
deriving DecidableEq, Repr

/-- The digraph being built: clusters tagged defined/undefined in creation
order, node registrations in order, and edges in order. -/
structure SGraph : Type where
  clusters : List (String × Bool)
  nodeAdds : List NodeAdd
  edges : List GraphEdge
deriving DecidableEq, Repr

/-- The empty digraph. -/
def SGraph.empty : SGraph := ⟨[], [], []⟩

/-- `digraph.getCluster` succeeds—cluster keys are the contract names. -/
def SGraph.hasCluster (dg : SGraph) (name : String) : Bool :=
  dg.clusters.any (fun c => c.1 = name)

/-- `digraph.addCluster`, tagging whether the creation used the defined or
the undefined styling. -/
def SGraph.addCluster (dg : SGraph) (name : String) (defined : Bool) : SGraph :=
  { dg with clusters := dg.clusters ++ [(name, defined)] }

/-- `digraph.getNode` succeeds: some cluster holds a node of that name. -/
def SGraph.hasNode (dg : SGraph) (name : String) : Bool :=
  dg.nodeAdds.any (fun na => na.name = name)

/-- `cluster.addNode` (idempotent for a repeated identical registration,
as re-adding the same id to the same cluster replaces it). -/
def SGraph.addNode (dg : SGraph) (name cluster : String) : SGraph :=
  if dg.nodeAdds.any (fun na => na.name = name ∧ na.cluster = cluster) then dg
  else { dg with nodeAdds := dg.nodeAdds ++ [⟨name, cluster⟩] }

/-- `digraph.addEdge`. -/
def SGraph.addEdge (dg : SGraph) (src dst : String) (kind : EdgeKind) : SGraph :=
  { dg with edges := dg.edges ++ [⟨src, dst, kind⟩] }

/-! ## Pass 1: declaration collector (graph.js lines 43-198) -/

/-- The mutable variables of graph.js lines 44-54 plus the digraph itself
(clusters for declared contracts are created during this pass,
lines 115-131), and the traversal's `contractName` variable. -/
structure CollectState : Type where
  dg : SGraph
  userDefinedStateVars : JsObj (JsObj String)
  stateVars : JsObj (JsObj (Option String))
  dependencies : JsObj (List String)
  functionsPerContract : JsObj (List (Option String))
  eventsPerContract : JsObj (List String)
  structsPerContract : JsObj (List String)
  contractUsingFor : JsObj (JsObj (List String))
  contractNames : List String
  customErrorNames : List String
  contractName : String
deriving DecidableEq, Repr

/-- Initial state (graph.js lines 44-53): the per-contract tables start
with an entry for the global pseudo-contract. -/
def pass1Init : CollectState :=
  { dg := SGraph.empty
    userDefinedStateVars := []
    stateVars := []
    dependencies := []
    functionsPerContract := [("0_global", [])]
    eventsPerContract := [("0_global", [])]
    structsPerContract := [("0_global", [])]
    contractUsingFor := []
    contractNames := ["0_global"]
    customErrorNames := []
    contractName := "0_global" }

/-- Per-file reinitialization (graph.js lines 87-94): the `0_global`
tables are reset for every file. -/
def pass1FileInit (st : CollectState) : CollectState :=
  { st with
    contractName := "0_global"
    userDefinedStateVars := st.userDefinedStateVars.set "0_global" []
    stateVars := st.stateVars.set "0_global" []
    functionsPerContract := st.functionsPerContract.set "0_global" []
    eventsPerContract := st.eventsPerContract.set "0_global" []
    structsPerContract := st.structsPerContract.set "0_global" []
    contractUsingFor := st.contractUsingFor.set "0_global" [] }

/-- The `StateVariableDeclaration` handler's per-variable classification
(graph.js lines 152-163).  A `null` variable name would be coerced to the
property key `"null"` by JavaScript. -/
def recordStateVar (cn : String) (uds : JsObj (JsObj String))
    (sv : JsObj (JsObj (Option String))) (v : ParamDecl) :
    JsObj (JsObj String) × JsObj (JsObj (Option String)) :=
  let nm := v.name.getD "null"
  match v.ty with
  | .userDefined p => (uds.set cn (((uds.get? cn).getD []).set nm p), sv)
  | .elementary n => (uds, sv.set cn (((sv.get? cn).getD []).set nm (some n)))
  | .arrayOf base => (uds, sv.set cn (((sv.get? cn).getD []).set nm base.jsNamePath))
  | .mappingTo val => (uds, sv.set cn (((sv.get? cn).getD []).set nm val.jsName))

/-- One event step of the first (declaration-collecting) visit,
graph.js lines 96-197.  Events with no registered handler in this pass
leave the state unchanged.  The pushed function name is the raw parser
`name` field, so constructors push JavaScript `null` (here `none`). -/
def pass1Step (st : CollectState) : VEvent → CollectState
  | .contractEnter n _ bs =>
    let dg := if st.dg.hasCluster n then st.dg else st.dg.addCluster n true
    { st with
      contractName := n
      contractNames := st.contractNames ++ [n]
      userDefinedStateVars := st.userDefinedStateVars.set n []
      stateVars := st.stateVars.set n []
      functionsPerContract := st.functionsPerContract.set n []
      eventsPerContract := st.eventsPerContract.set n []
      structsPerContract := st.structsPerContract.set n []
      contractUsingFor := st.contractUsingFor.set n []
      dg := dg
      dependencies := st.dependencies.set n ("0_global" :: bs) }
  | .contractExit => { st with contractName := "0_global" }
  | .stateVarEvent vars =>
    let r := vars.foldl
      (fun (p : JsObj (JsObj String) × JsObj (JsObj (Option String))) v =>
        recordStateVar st.contractName p.1 p.2 v)
      (st.userDefinedStateVars, st.stateVars)
    { st with userDefinedStateVars := r.1, stateVars := r.2 }
  | .functionEnter fd =>
    let fns := ((st.functionsPerContract.get? st.contractName).getD []) ++ [fd.name]
    { st with functionsPerContract := st.functionsPerContract.set st.contractName fns }
  | .customErrorDefEvent n =>
    let fns := ((st.functionsPerContract.get? st.contractName).getD []) ++ [some n]
    { st with
      functionsPerContract := st.functionsPerContract.set st.contractName fns
      customErrorNames := st.customErrorNames ++ [n] }
  | .eventDefEvent n =>
    let evs := ((st.eventsPerContract.get? st.contractName).getD []) ++ [n]
    { st with eventsPerContract := st.eventsPerContract.set st.contractName evs }
  | .structDefEvent n =>
    let sts := ((st.structsPerContract.get? st.contractName).getD []) ++ [n]
    { st with structsPerContract := st.structsPerContract.set st.contractName sts }
  | .usingForEvent ty lib =>
    let key := ty.getD "*"
    let cur := (st.contractUsingFor.get? st.contractName).getD []
    let inner := (cur.get? key).getD []
    let cuf := st.contractUsingFor.set st.contractName (cur.set key (jsSetAdd inner lib))
    { st with contractUsingFor := cuf }
  | _ => st

/-- Pass 1 over one file. -/
def runPass1File (st : CollectState) (f : SolFile) : CollectState :=
  (fileEvents f).foldl pass1Step (pass1FileInit st)

/-- Pass 1 over the whole file list. -/
def runPass1 (files : List SolFile) : CollectState :=
  files.foldl runPass1File pass1Init

/-! ## Inheritance linearization

Modelled from the spec: the `c3-linearization` package called at
graph.js line 200 is not among the sources; spec section 4.3 describes it
as a C3 merge over the direct-base lists (each list here arrives with
`0_global` prepended), with the `reverse` option accounting for the
language's most-derived-last base order, producing for every key an order
that starts with the contract itself and ends at the common ancestor.
A name with no entry of its own linearizes to just itself. -/

/-- A head is viable if it occurs in no list's tail. -/
def c3HeadOk (h : String) (ls : List (List String)) : Bool :=
  ls.all (fun l => ¬ (l.drop 1).contains h)

/-- The first viable head in list order. -/
def c3PickHead (ls : List (List String)) : Option String :=
  (ls.filterMap List.head?).find? (fun h => c3HeadOk h ls)

/-- Removes a selected head from every list that starts with it, dropping
lists that become empty. -/
def c3RemoveHead (h : String) (ls : List (List String)) : List (List String) :=
  (ls.map (fun l => if l.head? = some h then l.drop 1 else l)).filter
    (fun l => ¬ l.isEmpty)

/-- Fuel-driven C3 merge; `none` is an inconsistent hierarchy (or exhausted
fuel, which enough fuel rules out). -/
def c3MergeAux : Nat → List (List String) → Option (List String)
  | 0, ls => if (ls.filter (fun l => ¬ l.isEmpty)).isEmpty then some [] else none
  | n + 1, ls =>
    let ls1 := ls.filter (fun l => ¬ l.isEmpty)
    if ls1.isEmpty then some []
    else
      match c3PickHead ls1 with
      | none => none
      | some h => (c3MergeAux n (c3RemoveHead h ls1)).map (fun t => h :: t)

/-- C3 merge with sufficient fuel. -/
def c3Merge (ls : List (List String)) : Option (List String) :=
  c3MergeAux ((ls.map List.length).sum + 1) ls

/-- C3 linearization of one name: itself, followed by the merge of its
(reversed) direct-base list's linearizations and that list itself. -/
def c3Lin (deps : JsObj (List String)) : Nat → String → Option (List String)
  | 0, _ => none
  | fuel + 1, c =>
    match deps.get? c with
    | none => some [c]
    | some bases =>
      match bases.reverse.mapM (c3Lin deps fuel) with
      | none => none
      | some plins => (c3Merge (plins ++ [bases.reverse])).map (fun t => c :: t)

/-- `linearize(dependencies, ..reverse..)` of graph.js line 200: replaces
every entry of the dependency map by its linearization. -/
def linearizeDeps (deps : JsObj (List String)) : Option (JsObj (List String)) :=
  deps.mapM (fun p => (c3Lin deps (deps.length + 1) p.1).map (fun l => (p.1, l)))

/-! ## Qualified node names (graph.js lines 207-236) -/

/-- `functionName(node)` of graph.js lines 223-236.  A `null` name on a
plain function would be stringified by the template literal, hence the
`"null"` default. -/
def functionNameOf (fd : FuncHeader) : String :=
  if fd.isConstructor then "<Constructor>"
  else if fd.isFallback then "<Fallback>"
  else if fd.isReceiveEther then "<Receive Ether>"
  else fd.name.getD "null"

/-- `nodeName(functionName, contractName)` of graph.js lines 207-221: for
a non-synthetic member of a contract with a linearization entry, the first
ancestor (nearest-first, self included) that already registered a node
with this member name wins; otherwise the contract qualifies it itself. -/
def nodeName (dg : SGraph) (deps : JsObj (List String))
    (functionName contractName : String) : String :=
  if functionName ≠ "<Fallback>" ∧ functionName ≠ "<Receive Ether>" ∧
      functionName ≠ "<Constructor>" ∧ deps.hasKey contractName = true then
    match ((deps.get? contractName).getD []).find?
        (fun dep => dg.hasNode (dep ++ "." ++ functionName)) with
    | some dep => dep ++ "." ++ functionName
    | none => contractName ++ "." ++ functionName
  else contractName ++ "." ++ functionName

/-! ## Pass 2a: node registration (graph.js lines 238-295) -/

/-- State of the node-registration visit: the `contractName` and `cluster`
variables of graph.js lines 204-205 and the digraph. -/
structure RegState : Type where
  contractName : String
  cluster : Option String
  dg : SGraph
deriving DecidableEq, Repr

/-- One event step of the node-registration visit.  `ContractDefinition:exit`
resets only `contractName`, leaving `cluster` stale (lines 245-247).  A
`FunctionDefinition` with no cluster returns early (lines 273-274); a
`ModifierDefinition` has no such guard (line 293), so a null cluster there
is a JavaScript `TypeError`, modelled as `none`. -/
def pass2aStep (deps : JsObj (List String)) (st : RegState) :
    VEvent → Option RegState
  | .contractEnter n _ _ =>
    some { st with
      contractName := n
      cluster := if st.dg.hasCluster n then some n else none }
  | .contractExit => some { st with contractName := "0_global" }
  | .functionEnter fd =>
    let name := functionNameOf fd
    match st.cluster with
    | none => some st
    | some cl =>
      some { st with dg := st.dg.addNode (nodeName st.dg deps name st.contractName) cl }
  | .modifierEnter n =>
    match st.cluster with
    | none => none
    | some cl =>
      some { st with dg := st.dg.addNode (nodeName st.dg deps n st.contractName) cl }
  | _ => some st

/-- The node-registration visit over an event list. -/
def runPass2aEvents (deps : JsObj (List String)) (st : RegState)
    (evs : List VEvent) : Option RegState :=
  evs.foldlM (pass2aStep deps) st

/-! ## Pass 2b: scope-aware call resolution (graph.js lines 297-580) -/

/-- The configuration options the analysis passes read. -/
structure SuryaOptions : Type where
  libraries : Bool := false
  enableModifierEdges : Bool := false
deriving DecidableEq, Repr

/-- Read-only context of the call-resolution visit: the completed pass-1
tables, the linearized dependency map, and the options. -/
structure ResolveCtx : Type where
  p1 : CollectState
  deps : JsObj (List String)
  opts : SuryaOptions
deriving DecidableEq, Repr

/-- State of the call-resolution visit (graph.js lines 297-302 and the
shared `contractName` variable), plus the digraph. -/
structure RState : Type where
  contractName : String
  callingScope : Option String
  userDefinedLocalVars : JsObj String
  localVars : JsObj (Option String)
  tempUserDefinedStateVars : JsObj String
  tempStateVars : JsObj (Option String)
  eventDefinitions : List String
  dg : SGraph
deriving DecidableEq, Repr

/-- The ancestor chain used for plain-name visibility: the linearization
entry when one exists, else just the contract itself. -/
def chainOf (deps : JsObj (List String)) (cn : String) : List String :=
  (deps.get? cn).getD [cn]

/-- Modelled from the spec: `parserHelpers.isRegularFunctionCall`
(src/utils/parserHelpers.js is not among the sources); section 4.4: a
plain-name call matching a function, event or struct name visible
anywhere in the contract's ancestor chain, classified regular unless the
name is a known custom error (those take the error branch instead). -/
def isRegularFunctionCall (ctx : ResolveCtx) (contractName : String)
    (eventsOfDeps structsOfDeps : List String) : CallExprForm → Bool
  | .identExpr n =>
    let fnsVisible := (chainOf ctx.deps contractName).flatMap
      (fun d => (ctx.p1.functionsPerContract.get? d).getD [])
    (fnsVisible.contains (some n) || eventsOfDeps.contains n ||
        structsOfDeps.contains n) &&
      ! ctx.p1.customErrorNames.contains n
  | .memberExpr _ _ => false

/-- Result of the using-for block (graph.js lines 470-509) on the
`object` variable. -/
inductive UsingForOutcome : Type
  | keep : UsingForOutcome
  | replace (libraryName : String) : UsingForOutcome
  | suppress : UsingForOutcome
deriving DecidableEq, Repr

/-- The using-for dispatch of graph.js lines 470-509.  Note the two
coercions the code performs: `functionsPerContract.hasOwnProperty(<Set>)`
turns the set into the property key `"[object Set]"` (lines 473, 479,
497), and `new Set(...<Set>)` hands the set's first element — a string —
to the `Set` constructor, which iterates its characters (lines 477, 480);
the wildcard-only branch at line 499 spreads the set into an array
instead, keeping the library names intact. -/
def usingForDispatch (ctx : ResolveCtx) (cuf : JsObj (List String))
    (variableType : JsV) (memberName : String) : UsingForOutcome :=
  let fns := ctx.p1.functionsPerContract
  let declaresMember := fun (c : String) =>
    match fns.get? c with
    | some l => l.contains (some memberName)
    | none => false
  if variableType ≠ .vNull then
    if cuf.hasKey variableType.propKey ∧
        fns.hasKey (setPropKey ((cuf.get? variableType.propKey).getD [])) then
      let vtSet := (cuf.get? variableType.propKey).getD []
      let defs :=
        if cuf.hasKey "*" ∧ fns.hasKey (setPropKey ((cuf.get? "*").getD [])) then
          jsNewSetSpread (vtSet ++ (cuf.get? "*").getD [])
        else jsNewSetSpread vtSet
      let matching := defs.filter declaresMember
      match matching with
      | [] => .keep
      | lib :: _ => if ctx.opts.libraries then .suppress else .replace lib
    else .keep
  else
    if cuf.hasKey "*" ∧ fns.hasKey (setPropKey ((cuf.get? "*").getD [])) then
      let matching := ((cuf.get? "*").getD []).filter declaresMember
      match matching with
      | [] => .keep
      | lib :: _ => if ctx.opts.libraries then .suppress else .replace lib
    else .keep

/-- The shared tail of the `FunctionCall` handler (graph.js lines 537-578):
ensure a cluster for the target contract (created with the undefined
styling when absent), compute the qualified node name, add the node if no
node of that name exists anywhere, and emit the edge.  The event/error
node styling of lines 560-574 only affects attributes and is not
tracked. -/
def emitCall (ctx : ResolveCtx) (dg : SGraph)
    (callingScope name localContractName : String) (kind : EdgeKind) : SGraph :=
  let dg := if dg.hasCluster localContractName then dg
    else dg.addCluster localContractName false
  let localNodeName := nodeName dg ctx.deps name localContractName
  let dg := if dg.hasNode localNodeName then dg
    else dg.addNode localNodeName localContractName
  dg.addEdge callingScope localNodeName kind

/-- The `FunctionCall` handler (graph.js lines 379-579) on the embedded
call forms.  The source's branch chain is: `isRegularFunctionCall`, then
the custom-error check on `expression.name` (always false for a member
access, whose `name` field is `undefined`), then `isMemberAccess`; for an
identifier object the special-variable, elementary-typecast,
address-member and contract-typecast probes are all false, so the object
is the identifier and its type comes from the four variable tables in
priority order (lines 455-463).  A `super` call looks the member name up
in the full linearization of the current contract — which starts with the
contract itself — and keeps the first hit (lines 517-524); `none` models
the `TypeError` of spreading a missing `dependencies` entry. -/
def handleFunctionCall (ctx : ResolveCtx) (s : RState) (e : CallExprForm) :
    Option RState :=
  match s.callingScope with
  | none => some s
  | some callingScope =>
    let contractName := s.contractName
    let eventsOfDeps :=
      if ctx.deps.hasKey contractName then
        ((ctx.deps.get? contractName).getD []).flatMap
          (fun d => (ctx.p1.eventsPerContract.get? d).getD [])
      else []
    let structsOfDeps :=
      if ctx.deps.hasKey contractName then
        ((ctx.deps.get? contractName).getD []).flatMap
          (fun d => (ctx.p1.structsPerContract.get? d).getD [])
      else []
    match e with
    | .identExpr n =>
      if isRegularFunctionCall ctx contractName eventsOfDeps structsOfDeps
          (.identExpr n) then
        some { s with dg := emitCall ctx s.dg callingScope n contractName .regularCall }
      else if ctx.p1.customErrorNames.contains n then
        some { s with dg := emitCall ctx s.dg callingScope n contractName .errorCall }
      else some s
    | .memberExpr objName member =>
      let name := member
      let variableType : JsV :=
        if s.localVars.hasKey objName then
          jsVOfOpt ((s.localVars.get? objName).getD none)
        else if s.userDefinedLocalVars.hasKey objName then
          jsVOfOpt (s.userDefinedLocalVars.get? objName)
        else if s.tempUserDefinedStateVars.hasKey objName then
          jsVOfOpt (s.tempUserDefinedStateVars.get? objName)
        else if s.tempStateVars.hasKey objName then
          jsVOfOpt ((s.tempStateVars.get? objName).getD none)
        else .vNull
      let variableType :=
        if variableType = .vStr "uint" then .vStr "uint256" else variableType
      match ctx.p1.contractUsingFor.get? contractName with
      | none => none
      | some cuf =>
        match usingForDispatch ctx cuf variableType name with
        | .suppress => some s
        | outcome =>
          let object : String :=
            match outcome with
            | .replace lib => lib
            | _ => objName
          if object = "this" then
            some { s with dg := emitCall ctx s.dg callingScope name contractName .thisCall }
          else if object = "super" then
            match ctx.deps.get? contractName with
            | none => none
            | some dl =>
              let matching := dl.filter (fun c =>
                match ctx.p1.functionsPerContract.get? c with
                | some l => l.contains (some name)
                | none => false)
              match matching with
              | [] => some s
              | lc :: _ =>
                some { s with dg := emitCall ctx s.dg callingScope name lc .defaultCall }
          else
            match s.tempUserDefinedStateVars.get? object with
            | some v =>
              some { s with dg := emitCall ctx s.dg callingScope name v .defaultCall }
            | none =>
              match s.userDefinedLocalVars.get? object with
              | some v =>
                some { s with dg := emitCall ctx s.dg callingScope name v .defaultCall }
              | none =>
                some { s with dg := emitCall ctx s.dg callingScope name object .defaultCall }

/-- The `ParameterList` handler (graph.js lines 347-357): an unnamed
parameter aborts the whole handler; a user-defined parameter is recorded
without any scope check; others are recorded only inside a scope. -/
def paramListFold (callingScope : Option String) :
    List ParamDecl → JsObj String → JsObj (Option String) →
    JsObj String × JsObj (Option String)
  | [], u, l => (u, l)
  | p :: rest, u, l =>
    match p.name with
    | none => (u, l)
    | some nm =>
      match p.ty with
      | .userDefined pp => paramListFold callingScope rest (u.set nm pp) l
      | ty =>
        if callingScope.isSome then
          paramListFold callingScope rest u (l.set nm ty.jsName)
        else paramListFold callingScope rest u l

/-- One event step of the call-resolution visit (graph.js lines 304-580).
`ContractDefinition` seeds the temporary state-variable tables from every
linearized ancestor in order and then from the contract itself
(lines 305-315); `FunctionDefinition:exit` clears the scope and both
local tables (lines 333-337) while `ModifierDefinition:exit` clears only
the scope (lines 343-345). -/
def pass2bStep (ctx : ResolveCtx) (s : RState) : VEvent → Option RState
  | .contractEnter n _ _ =>
    match ctx.deps.get? n with
    | none => none
    | some dl =>
      let tU := dl.foldl
        (fun t dep => t.assignOpt (ctx.p1.userDefinedStateVars.get? dep))
        s.tempUserDefinedStateVars
      let tS := dl.foldl
        (fun t dep => t.assignOpt (ctx.p1.stateVars.get? dep)) s.tempStateVars
      let tU := tU.assignOpt (ctx.p1.userDefinedStateVars.get? n)
      let tS := tS.assignOpt (ctx.p1.stateVars.get? n)
      some { s with
        contractName := n
        tempUserDefinedStateVars := tU
        tempStateVars := tS }
  | .contractExit =>
    some { s with
      contractName := "0_global"
      tempUserDefinedStateVars := []
      tempStateVars := [] }
  | .eventDefEvent n =>
    some { s with eventDefinitions := s.eventDefinitions ++ [n] }
  | .functionEnter fd =>
    let cs := nodeName s.dg ctx.deps (functionNameOf fd) s.contractName
    some { s with callingScope := some cs }
  | .functionExit =>
    some { s with callingScope := none, userDefinedLocalVars := [], localVars := [] }
  | .modifierEnter n =>
    some { s with callingScope := some (nodeName s.dg ctx.deps n s.contractName) }
  | .modifierExit => some { s with callingScope := none }
  | .parameterListEvent ps =>
    let r := paramListFold s.callingScope ps s.userDefinedLocalVars s.localVars
    some { s with userDefinedLocalVars := r.1, localVars := r.2 }
  | .varDeclEvent nameOpt ty =>
    match s.callingScope with
    | none => some s
    | some _ =>
      match nameOpt with
      | none => some s
      | some nm =>
        match ty with
        | .userDefined p =>
          some { s with userDefinedLocalVars := s.userDefinedLocalVars.set nm p }
        | .elementary n =>
          some { s with localVars := s.localVars.set nm (some n) }
        | .arrayOf base =>
          some { s with localVars := s.localVars.set nm base.jsNamePath }
        | .mappingTo val =>
          some { s with localVars := s.localVars.set nm val.jsName }
  | .modifierInvocationEvent n =>
    match s.callingScope with
    | some cs =>
      if ctx.opts.enableModifierEdges then
        some { s with dg :=
          s.dg.addEdge cs (nodeName s.dg ctx.deps n s.contractName) .modifierEdge }
      else some s
    | none => some s
  | .functionCallEvent e => handleFunctionCall ctx s e
  | _ => some s

/-- The call-resolution visit over an event list. -/
def runPass2bEvents (ctx : ResolveCtx) (s : RState) (evs : List VEvent) :
    Option RState :=
  evs.foldlM (pass2bStep ctx) s

/-- The fresh pass-2b state at the top of a file's second visit. -/
def pass2bInit (dg : SGraph) : RState :=
  { contractName := "0_global"
    callingScope := none
    userDefinedLocalVars := []
    localVars := []
    tempUserDefinedStateVars := []
    tempStateVars := []
    eventDefinitions := []
    dg := dg }

/-- Both second-stage visits over one file (graph.js lines 202-581): node
registration, then call resolution, threading the digraph. -/
def runFilePass2 (ctx : ResolveCtx) (dg : SGraph) (f : SolFile) : Option SGraph :=
  match runPass2aEvents ctx.deps ⟨"0_global", none, dg⟩ (fileEvents f) with
  | none => none
  | some reg =>
    match runPass2bEvents ctx (pass2bInit reg.dg) (fileEvents f) with
    | none => none
    | some rs => some rs.dg

/-- The whole analysis of `graph(files, options)` after file reading and
parsing: pass 1 over every file, linearization, then the two second-stage
visits file by file.  `none` covers the fatal cases (empty input,
inconsistent inheritance, or one of the modelled `TypeError`s). -/
def runGraph (files : List SolFile) (opts : SuryaOptions) : Option SGraph :=
  if files.isEmpty then none
  else
    let p1 := runPass1 files
    match linearizeDeps p1.dependencies with
    | none => none
    | some deps =>
      let ctx : ResolveCtx := ⟨p1, deps, opts⟩
      files.foldlM (fun dg f => runFilePass2 ctx dg f) p1.dg

/-! ## Concrete runs used by the claims -/

/-- Function header for a plain named function. -/
def plainFn (n : String) : FuncHeader := { name := some n }

/-- Scene for the library-dispatch claim: `library SafeMath { add }` and
`contract Token { using SafeMath for uint256; function m() { uint256 a;
a.add(b); } }`. -/
def sceneUsingFor : SolFile :=
  [ .contractDef "SafeMath" .libraryK []
      [ .functionDef (plainFn "add")
          [⟨some "x", .elementary "uint256"⟩, ⟨some "y", .elementary "uint256"⟩]
          [] [] ],
    .contractDef "Token" .contractK []
      [ .usingForDef (some "uint256") "SafeMath",
        .functionDef (plainFn "m") [] []
          [ .localVarDecl (some "a") (.elementary "uint256"),
            .exprCall (.memberExpr "a" "add") ] ] ]

/-- Scene for the super-call claim: `contract A { f }`, `contract B is A
{ f }`, `contract C is B { g { super.f(); } }`. -/
def sceneSuper : SolFile :=
  [ .contractDef "A" .contractK [] [ .functionDef (plainFn "f") [] [] [] ],
    .contractDef "B" .contractK ["A"] [ .functionDef (plainFn "f") [] [] [] ],
    .contractDef "C" .contractK ["B"]
      [ .functionDef (plainFn "g") [] [] [ .exprCall (.memberExpr "super" "f") ] ] ]

/-- Scene where the calling contract itself declares the member invoked on
`super`: `contract E { f { super.f(); } }`. -/
def sceneSuperSelf : SolFile :=
  [ .contractDef "E" .contractK []
      [ .functionDef (plainFn "f") [] [] [ .exprCall (.memberExpr "super" "f") ] ] ]

/-- Scene for the inherited-call claim: `contract B { foo }`,
`contract C is B { m { foo(); } }` with no override. -/
def sceneInherited : SolFile :=
  [ .contractDef "B" .contractK [] [ .functionDef (plainFn "foo") [] [] [] ],
    .contractDef "C" .contractK ["B"]
      [ .functionDef (plainFn "m") [] [] [ .exprCall (.identExpr "foo") ] ] ]

/-- Scene for the linearization claim: contracts `A`, `B` and
`C is A, B`. -/
def sceneBases : SolFile :=
  [ .contractDef "A" .contractK [] [],
    .contractDef "B" .contractK [] [],
    .contractDef "C" .contractK ["A", "B"] [] ]

/-- Scene for the cluster claim: `contract A { f }` and a derived
`contract B is A { f }` redeclaring the inherited function. -/
def sceneOverride : SolFile :=
  [ .contractDef "A" .contractK [] [ .functionDef (plainFn "f") [] [] [] ],
    .contractDef "B" .contractK ["A"] [ .functionDef (plainFn "f") [] [] [] ] ]

/-- Scene for the scope claim: `contract K` with a modifier `mo` declaring
a local `uint256 x`, followed by a function `g`. -/
def sceneModScope : SolFile :=
  [ .contractDef "K" .contractK []
      [ .modifierDef "mo" [] [ .localVarDecl (some "x") (.elementary "uint256") ],
        .functionDef (plainFn "g") [] [] [] ] ]

/-- Builds the resolve context the second stage runs with. -/
def ctxOf (files : List SolFile) (opts : SuryaOptions) : Option ResolveCtx :=
  let p1 := runPass1 files
  (linearizeDeps p1.dependencies).map (fun deps => ⟨p1, deps, opts⟩)

/-- The call-resolution state of `sceneModScope` right after the
`ModifierDefinition:exit` hook has run (the first five events end with
that exit). -/
def modScopeStateAfterExit : Option RState :=
  match ctxOf [sceneModScope] {} with
  | none => none
  | some ctx =>
    match runPass2aEvents ctx.deps ⟨"0_global", none, ctx.p1.dg⟩
        (fileEvents sceneModScope) with
    | none => none
    | some reg =>
      runPass2bEvents ctx (pass2bInit reg.dg) ((fileEvents sceneModScope).take 5)

/-- Events that occur inside a function body or at file level outside any
contract: everything except contract enter/exit and modifier enter. -/
def isBodyLevelEvent : VEvent → Bool
  | .contractEnter _ _ _ => false
  | .contractExit => false
  | .modifierEnter _ => false
  | _ => true

/-- File system for the directory-input scene: `/p/d.sol` is a directory,
`/p/b.sol` an importless source file. -/
def fsSkipScene : String → Option FsEntry := fun p =>
  if p = "/p/d.sol" then some .dirEntry
  else if p = "/p/b.sol" then some (.fileEntry []) else none

/-- Trivial import resolution for scenes without imports. -/
def identityResolve : String → String → String := fun _ imp => imp

/-! ## Helper lemmas -/

/-- A successful C3 linearization starts with the linearized name itself. -/
theorem c3Lin_head_of_some (deps : JsObj (List String)) (fuel : Nat) (c : String)
    (l : List String) (h : c3Lin deps fuel c = some l) : l.head? = some c := by
  cases fuel with
  | zero => simp [c3Lin] at h
  | succ n =>
    unfold c3Lin at h
    split at h
    · simp only [Option.some.injEq] at h
      subst h
      rfl
    · split at h
      · simp at h
      · rcases Option.map_eq_some'.mp h with ⟨t, _, hl⟩
        subst hl
        rfl

/-- A body-level event leaves the node-registration state untouched when
no cluster is active. -/
theorem pass2aStep_bodyLevel (deps : JsObj (List String)) (st : RegState)
    (h : st.cluster = none) (e : VEvent) (he : isBodyLevelEvent e = true) :
    pass2aStep deps st e = some st := by
  cases e <;> simp_all [isBodyLevelEvent, pass2aStep]

/-- A run of body-level events leaves the node-registration state
untouched when no cluster is active. -/
theorem runPass2a_bodyLevel_noop (deps : JsObj (List String)) :
    ∀ (evs : List VEvent) (st : RegState), st.cluster = none →
      evs.all isBodyLevelEvent = true → runPass2aEvents deps st evs = some st := by
  intro evs
  induction evs with
  | nil => intro st _ _; rfl
  | cons e rest ih =>
    intro st h hall
    rw [List.all_cons, Bool.and_eq_true] at hall
    have hstep := pass2aStep_bodyLevel deps st h e hall.1
    show (pass2aStep deps st e).bind (fun s => runPass2aEvents deps s rest) = some st
    rw [hstep]
    exact ih st h hall.2

/-- Parameter-declaration events are body-level. -/
theorem varDeclEvents_bodyLevel (ps : List ParamDecl) :
    (ps.map (fun p => VEvent.varDeclEvent p.name p.ty)).all isBodyLevelEvent = true := by
  induction ps with
  | nil => rfl
  | cons p rest ih => simp [isBodyLevelEvent, ih]

/-- Body-statement events are body-level. -/
theorem bodyEvents_bodyLevel (body : List BodyItem) :
    (body.flatMap bodyItemEvents).all isBodyLevelEvent = true := by
  induction body with
  | nil => rfl
  | cons b rest ih =>
    cases b <;> simpa [bodyItemEvents, isBodyLevelEvent] using ih

/-- Every event produced by a file-level function definition is body-level. -/
theorem topFunctionDef_events_bodyLevel (fd : FuncHeader) (ps : List ParamDecl)
    (body : List BodyItem) :
    (topItemEvents (.topFunctionDef fd ps body)).all isBodyLevelEvent = true := by
  simp [topItemEvents, functionDefEvents, List.all_append, isBodyLevelEvent,
    varDeclEvents_bodyLevel ps, bodyEvents_bodyLevel body]

/-- The shared emission tail adds a node only when no node of that name
exists anywhere in the graph yet. -/
theorem emitCall_adds_only_missing (ctx : ResolveCtx) (dg : SGraph)
    (cs nm lc : String) (k : EdgeKind) :
    (emitCall ctx dg cs nm lc k).nodeAdds = dg.nodeAdds ∨
      ∃ na : NodeAdd, (emitCall ctx dg cs nm lc k).nodeAdds = dg.nodeAdds ++ [na] ∧
        dg.hasNode na.name = false := by
  unfold emitCall
  set dg1 : SGraph := if dg.hasCluster lc then dg else dg.addCluster lc false with hdg1
  have hAdds : dg1.nodeAdds = dg.nodeAdds := by
    rw [hdg1]
    by_cases hb : dg.hasCluster lc = true <;> simp [hb, SGraph.addCluster]
  set lnn := nodeName dg1 ctx.deps nm lc with hlnn
  by_cases h : dg1.hasNode lnn = true
  · left
    simp [h, SGraph.addEdge, hAdds]
  · right
    refine ⟨⟨lnn, lc⟩, ?_, ?_⟩
    · have hnone :
          ¬ ∃ x ∈ dg.nodeAdds, x.name = nodeName dg1 ctx.deps nm lc ∧ x.cluster = lc := by
        rintro ⟨x, hx, hx1, _⟩
        apply h
        rw [SGraph.hasNode, List.any_eq_true]
        refine ⟨x, ?_, by simp [hx1]⟩
        rw [hAdds]
        exact hx
      simp [h, SGraph.addNode, SGraph.addEdge, hAdds, hnone]
    · rw [SGraph.hasNode]
      rw [SGraph.hasNode] at h
      rw [← hAdds]
      simpa using h

/-! ## Claim theorems -/

/-- C6: a remappings manifest containing the line `@oz/=lib/openzeppelin/`,
found in a directory `D` reached by walking upward from the importing
file, makes the import `@oz/token/ERC20.sol` resolve to
`D/lib/openzeppelin/token/ERC20.sol` (matched prefix substituted by its
replacement and joined under `D`) when that path is a regular file, and
fail with the unresolved-import error otherwise. -/
theorem remapping_resolves_under_manifest_dir (D : String) (isFile : String → Bool) :
    resolveRemapped ["@oz/=lib/openzeppelin/"] "@oz/token/ERC20.sol" D isFile =
      if isFile (pathJoin D "lib/openzeppelin/token/ERC20.sol") then
        .ok (pathJoin D "lib/openzeppelin/token/ERC20.sol")
      else
        .error (.unresolvedImport (pathJoin D "lib/openzeppelin/token/ERC20.sol")) := by
  rfl

/-- C7 counterexample: a manifest whose second line has two `=` separators
still resolves an import matched by its first line — the scan breaks at
the first match before reaching the malformed line, so no
multiple-assignment error is raised. -/
theorem multi_equals_after_match_not_fatal :
    resolveRemapped ["@oz/=lib/", "a=b=c"] "@oz/token/ERC20.sol" "/root"
      (fun _ => true) = .ok "/root/lib/token/ERC20.sol" := by
  rfl

/-- C7 (amended): resolving a remapped import fails with the
multiple-assignment error when a manifest line with more than one `=`
separator is scanned before any line matching the import's leading path
segment (the scan stops at the first match, so later malformed lines are
never seen). -/
theorem multi_equals_fatal_only_before_match (pre : List String) (l : String)
    (post : List String) (imp currentDir : String) (isFile : String → Bool)
    (hpre : ∀ p ∈ pre, (jsSplit p "=").length ≤ 2 ∧
      jsIncludes ((jsSplit p "=").headD "") ((jsSplit imp "/").headD "") = false)
    (hl : (jsSplit l "=").length > 2) :
    resolveRemapped (pre ++ l :: post) imp currentDir isFile =
      .error .multipleAssignment := by
  have hscan : scanRemappings (pre ++ l :: post) ((jsSplit imp "/").headD "") =
      .error .multipleAssignment := by
    induction pre with
    | nil =>
      rw [List.nil_append]
      unfold scanRemappings
      rw [if_pos hl]
    | cons p rest ih =>
      rw [List.cons_append]
      have h1 : ¬ ((jsSplit p "=").length > 2) := by
        have := (hpre p (List.mem_cons_self p rest)).1
        omega
      have h2 : jsIncludes ((jsSplit p "=").headD "") ((jsSplit imp "/").headD "")
          = false := (hpre p (List.mem_cons_self p rest)).2
      unfold scanRemappings
      rw [if_neg h1]
      rw [h2]
      simp only [Bool.false_eq_true, if_false]
      exact ih (fun q hq => hpre q (List.mem_cons_of_mem p hq))
  simp only [resolveRemapped, hscan]

/-- C7 witness: a concrete manifest with a matching-free prefix before the
malformed line indeed fails with the multiple-assignment error. -/
theorem multi_equals_fatal_only_before_match_witness :
    resolveRemapped (["x=y"] ++ "a=b=c" :: []) "@oz/t.sol" "/r" (fun _ => false) =
      .error .multipleAssignment :=
  multi_equals_fatal_only_before_match ["x=y"] "a=b=c" [] "@oz/t.sol" "/r"
    (fun _ => false) (by decide) (by decide)

/-- C8: on input list `[/p/d.sol (a directory), /p/b.sol]`, the graph
file-reading loop skips the directory and still processes `/p/b.sol`,
but `importProfiler` returns the set accumulated so far as soon as it
hits the directory, so `/p/b.sol` is never profiled — the resolver does
not continue with the remaining entries as the claim (and the code's own
"Skipping directory" diagnostic) say. -/
theorem directory_input_abandons_remaining_entries :
    fsSkipScene "/p/d.sol" = some .dirEntry ∧
    importProfilerRun fsSkipScene identityResolve "/p" ["/p/d.sol", "/p/b.sol"] =
      .ok [] ∧
    graphReadLoop fsSkipScene ["/p/d.sol", "/p/b.sol"] = some ["/p/b.sol"] :=
  ⟨rfl, rfl, rfl⟩

/-- C1: with `library SafeMath { add }`, `using SafeMath for uint256` in
`Token`, and a call `a.add(b)` on a local `uint256 a`, the using-for
registration exists, yet `functionsPerContract.hasOwnProperty(<Set>)`
coerces the registered set to the key `"[object Set]"` — absent from the
table — so the dead guard keeps the raw object and the emitted edge
targets `a.add` in a synthesized undefined cluster `a`, not
`SafeMath.add`. -/
theorem using_for_call_keeps_raw_object :
    (runPass1 [sceneUsingFor]).contractUsingFor.get? "Token" =
      some [("uint256", ["SafeMath"])] ∧
    (runPass1 [sceneUsingFor]).functionsPerContract.hasKey (setPropKey ["SafeMath"]) =
      false ∧
    (runGraph [sceneUsingFor] {}).map SGraph.edges =
      some [⟨"Token.m", "a.add", .defaultCall⟩] ∧
    (runGraph [sceneUsingFor] {}).map SGraph.clusters =
      some [("SafeMath", true), ("Token", true), ("a", false)] :=
  ⟨rfl, rfl, rfl, rfl⟩

/-- C2 counterexample: in `contract A { f }`, `contract B is A { f }`,
`contract C is B { g { super.f(); } }`, the single emitted edge targets
the node `A.f` — not `B.f` as the claim states — because `B`'s
redeclaration of `f` was merged onto `A`'s node during registration. -/
theorem super_call_edge_not_to_derived_node :
    (runGraph [sceneSuper] {}).map (fun dg => dg.edges.map GraphEdge.dst) =
      some ["A.f"] ∧
    ("A.f" : String) ≠ "B.f" :=
  ⟨rfl, by decide⟩

/-- C2 (amended): the `super` resolver searches the contract's full
linearization including the contract itself and takes the first declarer
of the member as target contract; the emitted edge then lands on that
contract's merged qualified node, which may carry an earlier ancestor's
name — in the A/B/C scene the target contract is `B` but the edge goes to
the node `A.f`, and a contract that itself declares the member resolves
its own `super` call to itself (scene `E`, a self-loop edge), instead of
dropping the call. -/
theorem super_call_resolution_amended :
    (runGraph [sceneSuper] {}).map SGraph.edges =
      some [⟨"C.g", "A.f", .defaultCall⟩] ∧
    (runGraph [sceneSuperSelf] {}).map SGraph.edges =
      some [⟨"E.f", "E.f", .defaultCall⟩] :=
  ⟨rfl, rfl⟩

/-- C3: with `contract B { foo }` and `contract C is B` not redeclaring
`foo`, the plain-name call to `foo()` inside `C`'s own method emits an
edge to the node `B.foo` (the qualified-name computation walks `C`'s
linearization nearest-first and reuses the registered ancestor node),
and no node `C.foo` is ever registered. -/
theorem inherited_plain_call_targets_base_node :
    (runGraph [sceneInherited] {}).map SGraph.edges =
      some [⟨"C.m", "B.foo", .regularCall⟩] ∧
    (runGraph [sceneInherited] {}).map (fun dg => dg.nodeAdds) =
      some [⟨"B.foo", "B"⟩, ⟨"C.m", "C"⟩] :=
  ⟨rfl, rfl⟩

/-- C4: for contracts `A`, `B` and `C is A, B`, the collected dependency
map gets linearized so that every contract's order starts with itself and
ends with `0_global`; `A` and `B` both precede the pseudo-root in `C`'s
order consistently with their own (trivial) linearizations; and in
general any successful linearization starts with the linearized contract
itself. -/
theorem linearization_self_first_root_last :
    (runPass1 [sceneBases]).dependencies =
      [("A", ["0_global"]), ("B", ["0_global"]), ("C", ["0_global", "A", "B"])] ∧
    linearizeDeps (runPass1 [sceneBases]).dependencies =
      some [("A", ["A", "0_global"]), ("B", ["B", "0_global"]),
        ("C", ["C", "B", "A", "0_global"])] ∧
    ∀ (deps : JsObj (List String)) (fuel : Nat) (c : String) (l : List String),
      c3Lin deps fuel c = some l → l.head? = some c :=
  ⟨rfl, rfl, c3Lin_head_of_some⟩

/-- C4 witness: the general head property applied to `C`'s concrete
linearization in the scene. -/
theorem linearization_self_first_root_last_witness :
    (["C", "B", "A", "0_global"] : List String).head? = some "C" :=
  linearization_self_first_root_last.2.2 (runPass1 [sceneBases]).dependencies 4 "C"
    ["C", "B", "A", "0_global"] (by rfl)

/-- C5 counterexample: when `contract B is A` redeclares the inherited
`f`, the registration pass adds the merged node name `A.f` both to
cluster `A` and to cluster `B` — one qualified node name in two distinct
clusters, contradicting the claim. -/
theorem merged_node_added_to_two_clusters :
    ∃ dg : SGraph, runGraph [sceneOverride] {} = some dg ∧
      NodeAdd.mk "A.f" "A" ∈ dg.nodeAdds ∧ NodeAdd.mk "A.f" "B" ∈ dg.nodeAdds ∧
      ("A" : String) ≠ "B" :=
  ⟨⟨[("A", true), ("B", true)], [⟨"A.f", "A"⟩, ⟨"A.f", "B"⟩], []⟩,
    rfl, by decide, by decide, by decide⟩

/-- C5 (amended): a node lives in the cluster of its defining contract or
in a synthesized external cluster, except that when a derived contract
redeclares an inherited function the registration pass re-adds the merged
node name to the derived contract's cluster as well; the call-resolution
pass never re-adds a name, since its emission tail only creates a node
when no node of that name exists anywhere in the graph. -/
theorem node_cluster_membership_amended :
    (runGraph [sceneOverride] {}).map (fun dg => dg.nodeAdds) =
      some [⟨"A.f", "A"⟩, ⟨"A.f", "B"⟩] ∧
    ∀ (ctx : ResolveCtx) (dg : SGraph) (cs nm lc : String) (k : EdgeKind),
      (emitCall ctx dg cs nm lc k).nodeAdds = dg.nodeAdds ∨
        ∃ na : NodeAdd, (emitCall ctx dg cs nm lc k).nodeAdds = dg.nodeAdds ++ [na] ∧
          dg.hasNode na.name = false :=
  ⟨rfl, emitCall_adds_only_missing⟩

/-- C9 counterexample: in `sceneModScope` the fifth traversal event is the
modifier's exit hook, yet right after it has run the elementary local
table still holds the modifier-body binding `x : uint256` — the tables
are not emptied on modifier exit. -/
theorem modifier_exit_keeps_local_bindings :
    (fileEvents sceneModScope)[4]? = some .modifierExit ∧
    modScopeStateAfterExit.map (fun s => s.localVars) =
      some [("x", some "uint256")] ∧
    ([("x", some "uint256")] : JsObj (Option String)) ≠ [] :=
  ⟨rfl, rfl, by decide⟩

/-- C9 (amended): a function exit clears the calling scope and both
local-variable tables, but a modifier exit clears only the calling scope
and leaves both local tables untouched, so modifier-body locals stay
visible until the next function exit. -/
theorem scope_exit_clearing_amended :
    ∀ (ctx : ResolveCtx) (s : RState),
      pass2bStep ctx s .functionExit =
        some { s with callingScope := none, userDefinedLocalVars := [], localVars := [] } ∧
      pass2bStep ctx s .modifierExit = some { s with callingScope := none } :=
  fun _ _ => ⟨rfl, rfl⟩

/-- C10: a file-level function definition encountered while no contract
cluster is active (the state before any contract declaration in the file)
leaves the node-registration state — digraph included — completely
unchanged: the handler returns early because `cluster` is null, so the
function is silently absent from the output graph. -/
theorem file_level_function_registers_no_node (deps : JsObj (List String))
    (st : RegState) (fd : FuncHeader) (ps : List ParamDecl) (body : List BodyItem)
    (h : st.cluster = none) :
    runPass2aEvents deps st (topItemEvents (.topFunctionDef fd ps body)) = some st :=
  runPass2a_bodyLevel_noop deps _ st h (topFunctionDef_events_bodyLevel fd ps body)

/-- C10 witness: a concrete file-level function `h` at the start of a file
registers nothing. -/
theorem file_level_function_registers_no_node_witness :
    runPass2aEvents [] ⟨"0_global", none, SGraph.empty⟩
      (topItemEvents (.topFunctionDef (plainFn "h") [] [])) =
      some ⟨"0_global", none, SGraph.empty⟩ :=
  file_level_function_registers_no_node [] ⟨"0_global", none, SGraph.empty⟩
    (plainFn "h") [] [] rfl
